import Mathlib

/-!
Shallow embedding of `src/main.py` (Imageman/gemini_prompt).

Strings are modelled as `List Char`; the remote API is modelled as an
oracle `Nat → Outcome` giving the result of the i-th call; file contents
are modelled as `List Char` values threaded explicitly; `time.sleep` has
no state effect and is not modelled.
-/

/-- Python `needle in hay` substring test on strings. -/
def containsSub : List Char → List Char → Bool
  | needle, [] => needle.isEmpty
  | needle, c :: rest => needle.isPrefixOf (c :: rest) || containsSub needle rest

/-- Result of one `model.generate_content(prompt)` call: either a response
text or a raised exception carrying its textual representation `str(e)`. -/
inductive Outcome where
  | success (text : List Char)
  | failure (msg : List Char)

/-- Python `"rateLimitExceeded" in str(e)` (main.py line 57). -/
def isRateLimit (msg : List Char) : Bool :=
  containsSub "rateLimitExceeded".toList msg

/-- Whether an outcome is an exception classified as a rate limit. -/
def isRateLimitFailure : Outcome → Bool
  | Outcome.success _ => false
  | Outcome.failure msg => isRateLimit msg

/-- Mutable state of `generate_responses`: the `responses` list, the
`delay` value (a float, modelled exactly in ℚ since only `+ 0.5` steps
occur), the `errors` counter, and the number of API calls made so far
(used to index the oracle). -/
@[ext] structure GenState where
  responses : List (List Char)
  delay : ℚ
  errors : Nat
  calls : Nat

/-- INITIAL_DELAY = 3 (main.py line 19); responses, errors, calls start empty/0. -/
def initState : GenState :=
  { responses := [], delay := 3, errors := 0, calls := 0 }

/-- The inner `while True:` loop of `generate_responses` (main.py lines
50-67) for one slot of the `for` loop: try a call; on success append the
text and stop; on a rate-limit-classified exception add 0.5 to the delay,
increment `errors`, and stop if `errors > 20`, otherwise retry; on any
other exception stop (the slot is abandoned).  The loop terminates on
every oracle because each retry increments `errors` and retrying requires
`errors ≤ 20`. -/
def attemptSlot (oracle : Nat → Outcome) (s : GenState) : GenState :=
  match oracle s.calls with
  | Outcome.success text =>
      { responses := s.responses ++ [text], delay := s.delay,
        errors := s.errors, calls := s.calls + 1 }
  | Outcome.failure msg =>
      if isRateLimit msg then
        if h : s.errors + 1 > 20 then
          { responses := s.responses, delay := s.delay + (1 : ℚ)/2,
            errors := s.errors + 1, calls := s.calls + 1 }
        else
          attemptSlot oracle
            { responses := s.responses, delay := s.delay + (1 : ℚ)/2,
              errors := s.errors + 1, calls := s.calls + 1 }
      else
        { responses := s.responses, delay := s.delay,
          errors := s.errors, calls := s.calls + 1 }
termination_by 21 - s.errors
decreasing_by simp_wf; omega

/-- The outer `for _ in range(generation_count)` loop of
`generate_responses` (main.py lines 49-68): run `attemptSlot` once per
slot.  Note the `break` at line 67 exits only the inner `while`, so all
`generation_count` slots run. -/
def generate_responses (oracle : Nat → Outcome) : Nat → GenState → GenState
  | 0, s => s
  | Nat.succ n, s => generate_responses oracle n (attemptSlot oracle s)

/-- GENERATION_COUNT = 10 (main.py line 17). -/
def GENERATION_COUNT : Nat := 10

/-- An oracle on which every call raises a rate-limit-classified exception. -/
def allRateLimitedOracle : Nat → Outcome :=
  fun _ => Outcome.failure "429 rateLimitExceeded for quota".toList

/-- API_KEY_ENV_VAR = "GOOGLE_API_KEY" (main.py line 13). -/
def API_KEY_ENV_VAR : List Char := "GOOGLE_API_KEY".toList

/-- Message of the ValueError raised by `load_api_key` (main.py line 27). -/
def API_KEY_ERROR_MSG : List Char :=
  "API key not found in environment variable: ".toList ++ API_KEY_ENV_VAR

/-- Configuration error raised by `load_api_key`. -/
inductive ConfigErr where
  | valueError (msg : List Char)
deriving DecidableEq

/-- The function `load_api_key` (main.py lines 22-28).  The environment
variable's value after `load_dotenv` is the `env` argument (`none` when
unset); Python `if not api_key` is true exactly on `None` and `""`. -/
def load_api_key (env : Option (List Char)) : Except ConfigErr (List Char) :=
  match env with
  | none => Except.error (ConfigErr.valueError API_KEY_ERROR_MSG)
  | some v =>
      if v = [] then Except.error (ConfigErr.valueError API_KEY_ERROR_MSG)
      else Except.ok v

/-- Code points of the characters CPython `str.strip()` strips (those with
`str.isspace()` true): TAB through CR, the four information separators,
space, NEL, NBSP, Ogham space mark, the U+2000..U+200A spaces, the line
and paragraph separators, narrow no-break space, medium mathematical
space, and ideographic space. -/
def pyWsCodes : List Nat :=
  [9, 10, 11, 12, 13, 28, 29, 30, 31, 32, 0x85, 0xA0, 0x1680,
   0x2000, 0x2001, 0x2002, 0x2003, 0x2004, 0x2005, 0x2006, 0x2007,
   0x2008, 0x2009, 0x200A, 0x2028, 0x2029, 0x202F, 0x205F, 0x3000]

/-- Python whitespace as stripped by `str.strip()`. -/
def pyWs (c : Char) : Bool := pyWsCodes.contains c.toNat

/-- Python `s.strip()`: remove leading and trailing whitespace. -/
def pyStrip (cs : List Char) : List Char :=
  ((cs.dropWhile pyWs).reverse.dropWhile pyWs).reverse

/-- Result of the underlying `open`/`read` of the prompt file: contents,
FileNotFoundError, or some other exception with text `str(e)`. -/
inductive FileOutcome where
  | found (cs : List Char)
  | absent
  | readError (msg : List Char)

/-- Errors raised by `read_prompt_from_file`. -/
inductive ReadErr where
  | fileNotFound (msg : List Char)
  | runtimeError (msg : List Char)
deriving DecidableEq

/-- The function `read_prompt_from_file` (main.py lines 31-39): return the
stripped contents, or re-raise FileNotFoundError / RuntimeError with
messages naming the path. -/
def read_prompt_from_file (file_path : List Char) (fs : FileOutcome) :
    Except ReadErr (List Char) :=
  match fs with
  | FileOutcome.found cs => Except.ok (pyStrip cs)
  | FileOutcome.absent =>
      Except.error (ReadErr.fileNotFound ("Prompt file not found: ".toList ++ file_path))
  | FileOutcome.readError e =>
      Except.error (ReadErr.runtimeError
        ("Error reading prompt file: ".toList ++ file_path ++ ", ".toList ++ e))

/-- Content produced by a loop `for x in xs: file.write(x + "\n")`. -/
def writeLinesContent : List (List Char) → List Char
  | [] => []
  | r :: rest => r ++ '\n' :: writeLinesContent rest

/-- The function `write_prompts_to_file` (main.py lines 99-106): the path
is opened in mode "a" (append), so the new file content is the old content
followed by each prompt and a newline, in order. -/
def write_prompts_to_file (prompts : List (List Char)) (old : List Char) : List Char :=
  old ++ writeLinesContent prompts

/-- The function `write_raw_responses_to_file` (main.py lines 108-115):
the path is opened in mode "w" (truncate), so the old content is discarded
and the new content is each response followed by a newline, in order. -/
def write_raw_responses_to_file (responses : List (List Char)) (_old : List Char) :
    List Char :=
  writeLinesContent responses

/-- Split a character list at every newline. -/
def splitNl : List Char → List (List Char)
  | [] => [[]]
  | c :: rest =>
      if c = '\n' then [] :: splitNl rest
      else
        match splitNl rest with
        | [] => [[c]]
        | h :: t => (c :: h) :: t

/-- Lines of a text file: newline-separated segments, not counting the
empty segment after a terminating final newline. -/
def fileLines (cs : List Char) : List (List Char) :=
  let ps := splitNl cs
  if ps.getLast? = some [] then ps.dropLast else ps

/-! Model of `json.loads`.  Python JSON values; numbers keep their source
token (the extractor never inspects a number's value), object members keep
insertion order with later duplicate keys overwriting in place, as CPython
dicts do. -/

/-- A parsed JSON value. -/
inductive Json where
  | null
  | bool (b : Bool)
  | num (tok : List Char)
  | str (s : List Char)
  | arr (xs : List Json)
  | obj (kvs : List (List Char × Json))

/-- JSON whitespace accepted by the Python scanner. -/
def jsonWs (c : Char) : Bool :=
  c == ' ' || c == '\t' || c == '\n' || c == '\r'

/-- Skip JSON whitespace. -/
def skipWs (cs : List Char) : List Char := cs.dropWhile jsonWs

/-- Single-character string escapes of JSON. -/
def escChar : Char → Option Char
  | '"' => some '"'
  | '\\' => some '\\'
  | '/' => some '/'
  | 'b' => some (Char.ofNat 8)
  | 'f' => some (Char.ofNat 12)
  | 'n' => some '\n'
  | 'r' => some '\r'
  | 't' => some '\t'
  | _ => none

/-- Value of one hexadecimal digit. -/
def hexVal (c : Char) : Option Nat :=
  let n := c.toNat
  if 48 ≤ n ∧ n ≤ 57 then some (n - 48)
  else if 97 ≤ n ∧ n ≤ 102 then some (n - 87)
  else if 65 ≤ n ∧ n ≤ 70 then some (n - 55)
  else none

/-- Four hex digits of a `\uXXXX` escape. -/
def hex4 : List Char → Option (Nat × List Char)
  | a :: b :: c :: d :: rest =>
      match hexVal a, hexVal b, hexVal c, hexVal d with
      | some x, some y, some z, some w => some (((x*16+y)*16+z)*16+w, rest)
      | _, _, _, _ => none
  | _ => none

/-- A low surrogate escape `\uDC00`..`\uDFFF` at the front of the input. -/
def lowSurrogate (cs : List Char) : Option (Nat × List Char) :=
  match cs with
  | b :: u :: rest =>
      if b == '\\' && u == 'u' then
        match hex4 rest with
        | some (code, r) => if 0xDC00 ≤ code ∧ code ≤ 0xDFFF then some (code, r) else none
        | none => none
      else none
  | _ => none

/-- Span of decimal digits at the front of the input. -/
def digitSpan (cs : List Char) : List Char × List Char :=
  (cs.takeWhile Char.isDigit, cs.dropWhile Char.isDigit)

/-- Optional fraction and exponent parts of the JSON number grammar
`(\.[0-9]+)? ([eE][+-]?[0-9]+)?`, appended to the token read so far. -/
def numTail (pre : List Char) (rest : List Char) : List Char × List Char :=
  let fr := match rest with
    | c :: t =>
        if c == '.' then
          match digitSpan t with
          | ([], _) => (pre, rest)
          | (ds, r) => (pre ++ c :: ds, r)
        else (pre, rest)
    | [] => (pre, rest)
  match fr.2 with
  | e :: t =>
      if e == 'e' || e == 'E' then
        let st := match t with
          | s :: tt => if s == '+' || s == '-' then ([s], tt) else (([] : List Char), t)
          | [] => ([], t)
        match digitSpan st.2 with
        | ([], _) => fr
        | (ds, r) => (fr.1 ++ e :: (st.1 ++ ds), r)
      else fr
  | [] => fr

/-- JSON number token `-?(0|[1-9][0-9]*)(\.[0-9]+)?([eE][+-]?[0-9]+)?`
at the front of the input. -/
def parseNumber (cs : List Char) : Option (List Char × List Char) :=
  let sg : List Char × List Char := match cs with
    | c :: t => if c == '-' then ([c], t) else ([], cs)
    | [] => ([], [])
  match sg.2 with
  | [] => none
  | d :: t =>
      if d == '0' then some (numTail (sg.1 ++ [d]) t)
      else if d.isDigit then
        match digitSpan t with
        | (ds, r) => some (numTail (sg.1 ++ d :: ds) r)
      else none

/-- Insert a key-value pair into an object, CPython-dict style: an existing
key keeps its position and gets the new value. -/
def insertKV : List (List Char × Json) → List Char → Json → List (List Char × Json)
  | [], k, v => [(k, v)]
  | kv :: rest, k, v => if kv.1 = k then (k, v) :: rest else kv :: insertKV rest k v

/-- Collapse duplicate keys of parsed object members, later value winning. -/
def dedupKVs (l : List (List Char × Json)) : List (List Char × Json) :=
  l.foldl (fun acc kv => insertKV acc kv.1 kv.2) []

/-- Python dict lookup on an object's (deduplicated) members. -/
def jlookup : List (List Char × Json) → List Char → Option Json
  | [], _ => none
  | kv :: rest, k => if kv.1 = k then some kv.2 else jlookup rest k

/-- The recursive-descent parse functions, packaged so the mutual
recursion is plain structural recursion on a fuel bound (each recursive
call consumes fuel; `json_loads` supplies fuel well above the number of
calls any input of its length can cause). -/
structure JParsers where
  strBody : List Char → Option (List Char × List Char)
  val : List Char → Option (Json × List Char)
  arrItems : List Char → Option (List Json × List Char)
  objItems : List Char → Option (List (List Char × Json) × List Char)

/-- Parsers that fail on every input (fuel exhausted). -/
def jfail : JParsers :=
  { strBody := fun _ => none, val := fun _ => none,
    arrItems := fun _ => none, objItems := fun _ => none }

/-- One fuel layer of the recursive-descent parser for Python `json.loads`:
strings with escapes and strict control-character rejection, objects,
arrays, `null`/`true`/`false`, numbers, and the `NaN`/`Infinity`/
`-Infinity` constants CPython accepts by default.  A `\uXXXX` high
surrogate followed by a low surrogate combines into one scalar; a lone
surrogate (unrepresentable in a Lean `Char`) decodes via `Char.ofNat`. -/
def jstep : Nat → JParsers
  | 0 => jfail
  | Nat.succ n =>
      let p := jstep n
      { strBody := fun cs =>
          match cs with
          | [] => none
          | c :: rest =>
              if c == '"' then some ([], rest)
              else if c == '\\' then
                match rest with
                | [] => none
                | e :: r2 =>
                    if e == 'u' then
                      match hex4 r2 with
                      | none => none
                      | some (code, r3) =>
                          if 0xD800 ≤ code ∧ code ≤ 0xDBFF then
                            match lowSurrogate r3 with
                            | some (code2, r5) =>
                                (p.strBody r5).map (fun pr =>
                                  (Char.ofNat (0x10000 + (code - 0xD800) * 0x400 +
                                    (code2 - 0xDC00)) :: pr.1, pr.2))
                            | none =>
                                (p.strBody r3).map (fun pr => (Char.ofNat code :: pr.1, pr.2))
                          else
                            (p.strBody r3).map (fun pr => (Char.ofNat code :: pr.1, pr.2))
                    else
                      match escChar e with
                      | some ch => (p.strBody r2).map (fun pr => (ch :: pr.1, pr.2))
                      | none => none
              else if c.toNat < 32 then none
              else (p.strBody rest).map (fun pr => (c :: pr.1, pr.2)),
        val := fun cs =>
          match skipWs cs with
          | [] => none
          | c :: rest =>
              if c == '"' then (p.strBody rest).map (fun pr => (Json.str pr.1, pr.2))
              else if c == Char.ofNat 123 then
                match skipWs rest with
                | d :: r2 =>
                    if d == Char.ofNat 125 then some (Json.obj [], r2)
                    else (p.objItems (d :: r2)).map (fun pr =>
                      (Json.obj (dedupKVs pr.1), pr.2))
                | [] => none
              else if c == '[' then
                match skipWs rest with
                | d :: r2 =>
                    if d == ']' then some (Json.arr [], r2)
                    else (p.arrItems (d :: r2)).map (fun pr => (Json.arr pr.1, pr.2))
                | [] => none
              else
                let full := c :: rest
                if "null".toList.isPrefixOf full then some (Json.null, full.drop 4)
                else if "true".toList.isPrefixOf full then some (Json.bool true, full.drop 4)
                else if "false".toList.isPrefixOf full then some (Json.bool false, full.drop 5)
                else
                  match parseNumber full with
                  | some (tok, r) => some (Json.num tok, r)
                  | none =>
                      if "NaN".toList.isPrefixOf full then
                        some (Json.num "NaN".toList, full.drop 3)
                      else if "Infinity".toList.isPrefixOf full then
                        some (Json.num "Infinity".toList, full.drop 8)
                      else if "-Infinity".toList.isPrefixOf full then
                        some (Json.num "-Infinity".toList, full.drop 9)
                      else none,
        arrItems := fun cs =>
          match p.val cs with
          | none => none
          | some (v, r) =>
              match skipWs r with
              | c :: rest =>
                  if c == ',' then (p.arrItems rest).map (fun pr => (v :: pr.1, pr.2))
                  else if c == ']' then some ([v], rest)
                  else none
              | [] => none,
        objItems := fun cs =>
          match skipWs cs with
          | c :: rest =>
              if c == '"' then
                match p.strBody rest with
                | none => none
                | some (key, r1) =>
                    match skipWs r1 with
                    | k :: r2 =>
                        if k == ':' then
                          match p.val r2 with
                          | none => none
                          | some (v, r3) =>
                              match skipWs r3 with
                              | m :: r4 =>
                                  if m == ',' then
                                    (p.objItems r4).map (fun pr => ((key, v) :: pr.1, pr.2))
                                  else if m == Char.ofNat 125 then some ([(key, v)], r4)
                                  else none
                              | [] => none
                        else none
                    | [] => none
              else none
          | [] => none }

/-- Python `json.loads`: parse one JSON value, then require only
whitespace to remain; `none` models a raised `json.JSONDecodeError`. -/
def json_loads (cs : List Char) : Option Json :=
  match (jstep (4 * cs.length + 8)).val cs with
  | some (v, r) => if skipWs r = [] then some v else none
  | none => none

/-- Leading code-fence marker `startswith` argument (main.py line 73), 7 characters. -/
def CODE_FENCE_OPEN : List Char := "```json".toList

/-- Trailing code-fence marker `endswith` argument (main.py line 75), 3 characters. -/
def CODE_FENCE_CLOSE : List Char := "```".toList

/-- Python `s.endswith(t)`. -/
def endsWithB (t s : List Char) : Bool := t.reverse.isPrefixOf s.reverse

/-- Fence stripping of `extract_prompts_from_json` (main.py lines 73-76):
drop the first 7 characters when the text starts with the opening marker,
then drop the last 3 characters when the (possibly shortened) text ends
with the closing marker. -/
def stripFences (cs : List Char) : List Char :=
  let s1 := if CODE_FENCE_OPEN.isPrefixOf cs then cs.drop 7 else cs
  if endsWithB CODE_FENCE_CLOSE s1 then s1.take (s1.length - 3) else s1

/-- Errors `extract_prompts_from_json` can raise: the ValueError on bad
JSON and the KeyError on a missing "prompt" key carry the fence-stripped
text (main.py lines 82, 84); the catch-all RuntimeError (line 86) wraps
any other exception, in particular the TypeError from indexing a non-dict
item or iterating a non-iterable value. -/
inductive ExtractErr where
  | invalidJson (s : List Char)
  | missingPrompt (s : List Char)
  | runtimeError
deriving DecidableEq

/-- Python iteration `for item in data`: lists yield their elements, dicts
their keys (strings), strings their characters (1-character strings);
`None`, booleans and numbers are not iterable (TypeError). -/
def iterJson : Json → Option (List Json)
  | Json.arr xs => some xs
  | Json.obj kvs => some (kvs.map (fun kv => Json.str kv.1))
  | Json.str cs => some (cs.map (fun c => Json.str [c]))
  | _ => none

/-- Error raised while evaluating `item["prompt"]` in the comprehension. -/
inductive CollectErr where
  | typeErr
  | keyErr
deriving DecidableEq

/-- The key `"prompt"`. -/
def promptKey : List Char := "prompt".toList

/-- The comprehension `[item["prompt"] for item in data]` (main.py line
79): items are processed in order; the first non-dict item raises
TypeError, the first dict lacking the key raises KeyError. -/
def collectPrompts : List Json → Except CollectErr (List Json)
  | [] => Except.ok []
  | item :: rest =>
      match item with
      | Json.obj kvs =>
          match jlookup kvs promptKey with
          | some v =>
              match collectPrompts rest with
              | Except.ok vs => Except.ok (v :: vs)
              | Except.error e => Except.error e
          | none => Except.error CollectErr.keyErr
      | _ => Except.error CollectErr.typeErr

/-- Body of `extract_prompts_from_json` after fence stripping: parse and
run the comprehension, mapping each raised exception to the error the
`except` clauses at main.py lines 81-86 re-raise. -/
def extractCore (s : List Char) : Except ExtractErr (List Json) :=
  match json_loads s with
  | none => Except.error (ExtractErr.invalidJson s)
  | some data =>
      match iterJson data with
      | none => Except.error ExtractErr.runtimeError
      | some items =>
          match collectPrompts items with
          | Except.ok vs => Except.ok vs
          | Except.error CollectErr.typeErr => Except.error ExtractErr.runtimeError
          | Except.error CollectErr.keyErr => Except.error (ExtractErr.missingPrompt s)

/-- The function `extract_prompts_from_json` (main.py lines 70-86). -/
def extract_prompts_from_json (cs : List Char) : Except ExtractErr (List Json) :=
  extractCore (stripFences cs)

/-- Prompts contributed by one response inside `process_responses`: the
extracted list on success, nothing when the `except` clause at main.py
line 95 catches the error. -/
def okPrompts (r : List Char) : List Json :=
  match extract_prompts_from_json r with
  | Except.ok ps => ps
  | Except.error _ => []

/-- The function `process_responses` (main.py lines 88-97): extract from
each response in order, extending `all_prompts` on success and merely
logging on a caught ValueError/KeyError/RuntimeError (every error
`extract_prompts_from_json` can raise), so the function itself never
raises. -/
def process_responses : List (List Char) → List Json
  | [] => []
  | r :: rest => okPrompts r ++ process_responses rest

/-- A record the comprehension accepts: a dict containing "prompt". -/
def isObjWithPrompt : Json → Bool
  | Json.obj kvs => (jlookup kvs promptKey).isSome
  | _ => false

/-- Whether a value is a dict. -/
def isObj : Json → Bool
  | Json.obj _ => true
  | _ => false

/-- The "prompt" value of a record (for stating order preservation). -/
def promptValOf : Json → Json
  | Json.obj kvs => (jlookup kvs promptKey).getD Json.null
  | _ => Json.null

/-! Helper lemmas. -/

/-- A list is a Boolean prefix of itself. -/
theorem isPrefixOf_rfl (l : List Char) : l.isPrefixOf l = true := by
  induction l with
  | nil => rfl
  | cons c cr ih => simp [List.isPrefixOf, ih]

/-- A list is a Boolean prefix of itself followed by anything. -/
theorem isPrefixOf_self_append (p t : List Char) : p.isPrefixOf (p ++ t) = true := by
  induction p with
  | nil => cases t <;> rfl
  | cons c cr ih => simp [List.isPrefixOf, ih]

/-- Python substring test: a needle occurs in any ending extension of itself. -/
theorem containsSub_append_self (pre needle : List Char) :
    containsSub needle (pre ++ needle) = true := by
  induction pre with
  | nil =>
      cases needle with
      | nil => rfl
      | cons c cr => simp [containsSub, isPrefixOf_rfl]
  | cons p pr ih => simp [containsSub, ih]

/-- Splitting recovers a newline-free first chunk. -/
theorem splitNl_append_nl (r t : List Char) (h : '\n' ∉ r) :
    splitNl (r ++ '\n' :: t) = r :: splitNl t := by
  induction r with
  | nil => simp [splitNl]
  | cons c cr ih =>
      have hc : ¬ (c = '\n') := fun e => h (by simp [e])
      have h' : '\n' ∉ cr := fun m => h (List.mem_cons_of_mem _ m)
      simp only [List.cons_append, splitNl, if_neg hc, List.append_eq]
      rw [ih h']

/-- Splitting the content written by the line-writing loop. -/
theorem splitNl_writeLines (rs : List (List Char)) (h : ∀ r ∈ rs, '\n' ∉ r) :
    splitNl (writeLinesContent rs) = rs ++ [[]] := by
  induction rs with
  | nil => rfl
  | cons r rest ih =>
      simp only [writeLinesContent, List.cons_append]
      rw [splitNl_append_nl r _ (h r (List.mem_cons_self r rest)),
        ih (fun x hx => h x (List.mem_cons_of_mem _ hx))]

/-- The line-writing loop writes exactly its input lines. -/
theorem fileLines_writeLines (rs : List (List Char)) (h : ∀ r ∈ rs, '\n' ∉ r) :
    fileLines (writeLinesContent rs) = rs := by
  unfold fileLines
  rw [splitNl_writeLines rs h]
  simp [List.getLast?_concat, List.dropLast_concat]

/-- C5 (amended): `write_raw_responses_to_file` opens the raw-response path
in truncate mode (the old content does not appear in the result) and writes
each response followed by a newline in call order; hence for a batch of
newline-free responses the file afterwards holds exactly those responses as
its lines, in call order.  (The claim's unconditional line count fails for
responses that embed a newline, see the counterexample.) -/
theorem raw_responses_file_lines (old : List Char) (responses : List (List Char))
    (h : ∀ r ∈ responses, '\n' ∉ r) :
    write_raw_responses_to_file responses old = writeLinesContent responses ∧
    fileLines (write_raw_responses_to_file responses old) = responses := by
  exact ⟨rfl, fileLines_writeLines responses h⟩

/-- Witness for `raw_responses_file_lines` at a concrete batch over
non-empty previous content. -/
theorem raw_responses_file_lines_witness :
    write_raw_responses_to_file [['a'], ['b']] ['x'] = writeLinesContent [['a'], ['b']] ∧
    fileLines (write_raw_responses_to_file [['a'], ['b']] ['x']) = [['a'], ['b']] :=
  raw_responses_file_lines ['x'] [['a'], ['b']] (by decide)

/-- C5 counterexample: a single response with an embedded newline yields a
two-line raw-response file, so a batch of size K = 1 does not give exactly
K lines. -/
theorem raw_responses_embedded_newline :
    ([("a\nb".toList)] : List (List Char)).length = 1 ∧
    fileLines (write_raw_responses_to_file [("a\nb".toList)] []) = [['a'], ['b']] ∧
    (fileLines (write_raw_responses_to_file [("a\nb".toList)] [])).length = 2 := by
  refine ⟨rfl, by decide, by decide⟩

/-- C6: `write_prompts_to_file` opens the output path in append mode: the
new content is the old content unchanged followed by each prompt and a
newline in the given order; running it with `["a"]` and then `["b"]` on an
initially empty file leaves the two lines `a` and `b`. -/
theorem prompts_file_append (old : List Char) (prompts : List (List Char)) :
    write_prompts_to_file prompts old = old ++ writeLinesContent prompts ∧
    (write_prompts_to_file prompts old).take old.length = old ∧
    write_prompts_to_file [['b']] (write_prompts_to_file [['a']] []) = "a\nb\n".toList ∧
    fileLines (write_prompts_to_file [['b']] (write_prompts_to_file [['a']] []))
      = [['a'], ['b']] := by
  refine ⟨rfl, ?_, by decide, by decide⟩
  exact List.take_left old (writeLinesContent prompts)

/-- C8: `load_api_key` fails with the ValueError whose message names
GOOGLE_API_KEY exactly when the environment variable is unset or empty,
and otherwise returns the value unchanged. -/
theorem load_api_key_spec (env : Option (List Char)) :
    (load_api_key env = Except.error (ConfigErr.valueError API_KEY_ERROR_MSG)
        ↔ env = none ∨ env = some []) ∧
    (∀ v : List Char, v ≠ [] → load_api_key (some v) = Except.ok v) ∧
    containsSub API_KEY_ENV_VAR API_KEY_ERROR_MSG = true := by
  refine ⟨?_, ?_, ?_⟩
  · cases env with
    | none => simp [load_api_key]
    | some v =>
        by_cases hv : v = []
        · subst hv; simp [load_api_key]
        · simp [load_api_key, hv]
  · intro v hv
    simp [load_api_key, hv]
  · exact containsSub_append_self "API key not found in environment variable: ".toList
      API_KEY_ENV_VAR

/-- Witness for `load_api_key_spec`: a set key is returned unchanged, a
missing key gives the naming error. -/
theorem load_api_key_spec_witness :
    load_api_key (some "k".toList) = Except.ok "k".toList ∧
    load_api_key none = Except.error (ConfigErr.valueError API_KEY_ERROR_MSG) :=
  ⟨(load_api_key_spec (some "k".toList)).2.1 "k".toList (by decide),
    (load_api_key_spec none).1.mpr (Or.inl rfl)⟩

/-- The head of a `dropWhile` never satisfies the predicate. -/
theorem head?_dropWhile_false (p : Char → Bool) :
    ∀ (l : List Char) (c : Char), (l.dropWhile p).head? = some c → p c = false := by
  intro l
  induction l with
  | nil => intro c h; simp [List.dropWhile] at h
  | cons a l ih =>
      intro c h
      by_cases ha : p a = true
      · rw [List.dropWhile_cons, if_pos ha] at h
        exact ih c h
      · rw [List.dropWhile_cons, if_neg ha] at h
        simp only [List.head?_cons, Option.some.injEq] at h
        subst h
        simpa using ha

/-- Decomposition performed by `pyStrip`: the input is an all-whitespace
part, the stripped result (which neither starts nor ends in whitespace),
and an all-whitespace part. -/
theorem pyStrip_spec (cs : List Char) :
    (∃ pre post, cs = pre ++ pyStrip cs ++ post ∧
      pre.all pyWs = true ∧ post.all pyWs = true) ∧
    (∀ c, (pyStrip cs).head? = some c → pyWs c = false) ∧
    (∀ c, (pyStrip cs).getLast? = some c → pyWs c = false) := by
  have hr : cs.dropWhile pyWs
      = pyStrip cs ++ ((cs.dropWhile pyWs).reverse.takeWhile pyWs).reverse := by
    conv_lhs => rw [← List.reverse_reverse (cs.dropWhile pyWs),
      ← List.takeWhile_append_dropWhile pyWs (cs.dropWhile pyWs).reverse]
    rw [List.reverse_append]
    rfl
  refine ⟨⟨cs.takeWhile pyWs, ((cs.dropWhile pyWs).reverse.takeWhile pyWs).reverse,
      ?_, ?_, ?_⟩, ?_, ?_⟩
  · rw [List.append_assoc, ← hr, List.takeWhile_append_dropWhile]
  · exact List.all_eq_true.mpr fun c hc => List.mem_takeWhile_imp hc
  · exact List.all_eq_true.mpr fun c hc =>
      List.mem_takeWhile_imp (List.mem_reverse.mp hc)
  · intro c hc
    have : (cs.dropWhile pyWs).head? = some c := by
      cases hstrip : pyStrip cs with
      | nil => rw [hstrip] at hc; simp at hc
      | cons a t =>
          rw [hstrip] at hc
          simp only [List.head?_cons, Option.some.injEq] at hc
          rw [hr, hstrip, ← hc]
          rfl
    exact head?_dropWhile_false pyWs cs c this
  · intro c hc
    have : ((cs.dropWhile pyWs).reverse.dropWhile pyWs).head? = some c := by
      rw [← List.getLast?_reverse ((cs.dropWhile pyWs).reverse.dropWhile pyWs)]
      exact hc
    exact head?_dropWhile_false pyWs (cs.dropWhile pyWs).reverse c this

/-- C9: `read_prompt_from_file` returns the file contents with leading and
trailing whitespace trimmed when the file is readable (the contents split
as whitespace, result, whitespace, and the result neither starts nor ends
with whitespace); it fails with a FileNotFoundError whose message names
the path when the file is absent, and with a RuntimeError whose message
names the path and wraps the underlying exception text on any other read
failure. -/
theorem read_prompt_spec (file_path cs e : List Char) :
    read_prompt_from_file file_path (FileOutcome.found cs) = Except.ok (pyStrip cs) ∧
    (∃ pre post, cs = pre ++ pyStrip cs ++ post ∧
      pre.all pyWs = true ∧ post.all pyWs = true) ∧
    (∀ c, (pyStrip cs).head? = some c → pyWs c = false) ∧
    (∀ c, (pyStrip cs).getLast? = some c → pyWs c = false) ∧
    read_prompt_from_file file_path FileOutcome.absent =
      Except.error (ReadErr.fileNotFound ("Prompt file not found: ".toList ++ file_path)) ∧
    containsSub file_path ("Prompt file not found: ".toList ++ file_path) = true ∧
    read_prompt_from_file file_path (FileOutcome.readError e) =
      Except.error (ReadErr.runtimeError
        ("Error reading prompt file: ".toList ++ file_path ++ ", ".toList ++ e)) ∧
    containsSub e
      ("Error reading prompt file: ".toList ++ file_path ++ ", ".toList ++ e) = true := by
  obtain ⟨hdec, hhead, hlast⟩ := pyStrip_spec cs
  refine ⟨rfl, hdec, hhead, hlast, rfl, ?_, rfl, ?_⟩
  · exact containsSub_append_self "Prompt file not found: ".toList file_path
  · simpa [List.append_assoc] using
      containsSub_append_self
        ("Error reading prompt file: ".toList ++ file_path ++ ", ".toList) e

/-- Witness for `read_prompt_spec`: on contents `"  hi\n"` the trimmed
result `"hi"` starts with `'h'` and ends with `'i'`, both non-whitespace. -/
theorem read_prompt_spec_witness : pyWs 'h' = false ∧ pyWs 'i' = false :=
  ⟨(read_prompt_spec "./prompt.txt".toList "  hi\n".toList []).2.2.1 'h' rfl,
   (read_prompt_spec "./prompt.txt".toList "  hi\n".toList []).2.2.2.1 'i' rfl⟩

/-- When every item is a dict containing "prompt", the comprehension
succeeds and returns the values in item order. -/
theorem collectPrompts_allGood (items : List Json)
    (h : ∀ y ∈ items, isObjWithPrompt y = true) :
    collectPrompts items = Except.ok (items.map promptValOf) := by
  induction items with
  | nil => rfl
  | cons item rest ih =>
      have hi := h item (List.mem_cons_self _ _)
      cases item with
      | obj kvs =>
          obtain ⟨v, hv⟩ := Option.isSome_iff_exists.mp (by simpa [isObjWithPrompt] using hi)
          simp [collectPrompts, hv, ih (fun y hy => h y (List.mem_cons_of_mem _ hy)),
            promptValOf]
      | null => simp [isObjWithPrompt] at hi
      | bool b => simp [isObjWithPrompt] at hi
      | num t => simp [isObjWithPrompt] at hi
      | str c => simp [isObjWithPrompt] at hi
      | arr xs => simp [isObjWithPrompt] at hi

/-- The comprehension raises TypeError at the first non-dict item when all
earlier items are dicts containing "prompt". -/
theorem collectPrompts_firstNonObj : ∀ (pre : List Json) (x : Json) (post : List Json),
    (∀ y ∈ pre, isObjWithPrompt y = true) → isObj x = false →
    collectPrompts (pre ++ x :: post) = Except.error CollectErr.typeErr := by
  intro pre
  induction pre with
  | nil =>
      intro x post _ hx
      cases x with
      | obj kvs => simp [isObj] at hx
      | null => rfl
      | bool b => rfl
      | num t => rfl
      | str c => rfl
      | arr xs => rfl
  | cons y pre ih =>
      intro x post h hx
      have hy := h y (List.mem_cons_self _ _)
      cases y with
      | obj kvs =>
          obtain ⟨v, hv⟩ := Option.isSome_iff_exists.mp (by simpa [isObjWithPrompt] using hy)
          simp [collectPrompts, hv,
            ih x post (fun z hz => h z (List.mem_cons_of_mem _ hz)) hx]
      | null => simp [isObjWithPrompt] at hy
      | bool b => simp [isObjWithPrompt] at hy
      | num t => simp [isObjWithPrompt] at hy
      | str c => simp [isObjWithPrompt] at hy
      | arr xs => simp [isObjWithPrompt] at hy

/-- The comprehension raises KeyError at the first dict lacking "prompt"
when all earlier items are dicts containing it. -/
theorem collectPrompts_firstMissingKey :
    ∀ (pre : List Json) (kvs : List (List Char × Json)) (post : List Json),
    (∀ y ∈ pre, isObjWithPrompt y = true) → jlookup kvs promptKey = none →
    collectPrompts (pre ++ Json.obj kvs :: post) = Except.error CollectErr.keyErr := by
  intro pre
  induction pre with
  | nil => intro kvs post _ hk; simp [collectPrompts, hk]
  | cons y pre ih =>
      intro kvs post h hk
      have hy := h y (List.mem_cons_self _ _)
      cases y with
      | obj kvs' =>
          obtain ⟨v, hv⟩ := Option.isSome_iff_exists.mp (by simpa [isObjWithPrompt] using hy)
          simp [collectPrompts, hv,
            ih kvs post (fun z hz => h z (List.mem_cons_of_mem _ hz)) hk]
      | null => simp [isObjWithPrompt] at hy
      | bool b => simp [isObjWithPrompt] at hy
      | num t => simp [isObjWithPrompt] at hy
      | str c => simp [isObjWithPrompt] at hy
      | arr xs => simp [isObjWithPrompt] at hy

/-- C2: `process_responses` returns the concatenation, in response order,
of the prompt lists of the responses that extract successfully (a failing
response contributes `[]` while the loop continues; the function is total,
so no error escapes it); on the two-response batch whose first response
yields `["a","b"]` and whose second is malformed, the result is exactly
`["a","b"]`. -/
theorem process_responses_spec (rs : List (List Char)) :
    process_responses rs = (rs.map okPrompts).flatten ∧
    process_responses
      ["[\x7b\"prompt\":\"a\"\x7d,\x7b\"prompt\":\"b\"\x7d]".toList,
        "\x7bnot json".toList]
      = [Json.str ['a'], Json.str ['b']] := by
  constructor
  · induction rs with
    | nil => rfl
    | cons r rest ih => simp [process_responses, ih]
  · rfl

/-- Fence stripping inverts wrapping in the code-fence markers: the prefix
test succeeds, 7 characters are dropped, then the suffix test succeeds on
the shortened text and 3 characters are dropped. -/
theorem stripFences_wrap (t : List Char) :
    stripFences (CODE_FENCE_OPEN ++ t ++ CODE_FENCE_CLOSE) = t := by
  have hpre : CODE_FENCE_OPEN.isPrefixOf (CODE_FENCE_OPEN ++ t ++ CODE_FENCE_CLOSE)
      = true := by
    rw [List.append_assoc]
    exact isPrefixOf_self_append _ _
  have hdrop : (CODE_FENCE_OPEN ++ t ++ CODE_FENCE_CLOSE).drop 7
      = t ++ CODE_FENCE_CLOSE := by
    rw [List.append_assoc, show (7 : ℕ) = CODE_FENCE_OPEN.length from rfl]
    exact List.drop_left _ _
  have hend : endsWithB CODE_FENCE_CLOSE (t ++ CODE_FENCE_CLOSE) = true := by
    unfold endsWithB
    rw [List.reverse_append]
    exact isPrefixOf_self_append _ _
  have hlen : (t ++ CODE_FENCE_CLOSE).length - 3 = t.length := by
    rw [List.length_append, show CODE_FENCE_CLOSE.length = 3 from rfl]
    omega
  unfold stripFences
  rw [if_pos hpre, hdrop, if_pos hend, hlen]
  exact List.take_left t CODE_FENCE_CLOSE

/-- C3: `extract_prompts_from_json` of a fenced text is the parse of the
unfenced text (the 7-character opening marker is dropped, then the
3-character closing marker); when the parsed records are all dicts
containing "prompt", the values are collected in record order; on the
fenced example the result is `["a"]`. -/
theorem extract_prompts_fenced (t : List Char) :
    extract_prompts_from_json (CODE_FENCE_OPEN ++ t ++ CODE_FENCE_CLOSE)
      = extractCore t ∧
    (∀ items : List Json, (∀ y ∈ items, isObjWithPrompt y = true) →
      collectPrompts items = Except.ok (items.map promptValOf)) ∧
    extract_prompts_from_json "```json\n[\x7b\"prompt\":\"a\"\x7d]\n```".toList
      = Except.ok [Json.str ['a']] := by
  refine ⟨?_, collectPrompts_allGood, by rfl⟩
  unfold extract_prompts_from_json
  rw [stripFences_wrap]

/-- Witness for `extract_prompts_fenced`: the in-order collection clause
at a concrete one-record list. -/
theorem extract_prompts_fenced_witness :
    collectPrompts [Json.obj [(promptKey, Json.str ['a'])]]
      = Except.ok [Json.str ['a']] :=
  (extract_prompts_fenced []).2.1 [Json.obj [(promptKey, Json.str ['a'])]] (by decide)

/-- C4 (amended): extraction fails with the ValueError carrying the
fence-stripped text whenever that text does not parse as JSON, and with
the KeyError whenever the first offending record — in order — is a dict
lacking "prompt" (all earlier records being dicts that contain it); both
errors are among those `process_responses` catches, so such a response
contributes zero prompts; `'[{"notprompt":"x"}]'` raises the missing-key
error.  (When a non-dict record precedes the key-less dict, the TypeError
wins instead, see the counterexample.) -/
theorem extract_error_conditions (s : List Char) :
    (json_loads (stripFences s) = none →
      extract_prompts_from_json s
        = Except.error (ExtractErr.invalidJson (stripFences s))) ∧
    (∀ (v : Json) (pre : List Json) (kvs : List (List Char × Json)) (post : List Json),
      json_loads (stripFences s) = some v →
      iterJson v = some (pre ++ Json.obj kvs :: post) →
      (∀ y ∈ pre, isObjWithPrompt y = true) →
      jlookup kvs promptKey = none →
      extract_prompts_from_json s
        = Except.error (ExtractErr.missingPrompt (stripFences s))) ∧
    (∀ e, extract_prompts_from_json s = Except.error e →
      process_responses [s] = []) ∧
    extract_prompts_from_json "[\x7b\"notprompt\":\"x\"\x7d]".toList
      = Except.error (ExtractErr.missingPrompt "[\x7b\"notprompt\":\"x\"\x7d]".toList) := by
  refine ⟨?_, ?_, ?_, by rfl⟩
  · intro h
    simp [extract_prompts_from_json, extractCore, h]
  · intro v pre kvs post hl hi hpre hk
    simp [extract_prompts_from_json, extractCore, hl, hi,
      collectPrompts_firstMissingKey pre kvs post hpre hk]
  · intro e he
    simp [process_responses, okPrompts, he]

/-- Witness for `extract_error_conditions`: malformed JSON gives the
ValueError, which the caller catches, contributing zero prompts. -/
theorem extract_error_conditions_witness :
    extract_prompts_from_json "\x7bnot json".toList
      = Except.error (ExtractErr.invalidJson "\x7bnot json".toList) ∧
    process_responses ["\x7bnot json".toList] = [] :=
  ⟨(extract_error_conditions "\x7bnot json".toList).1 rfl,
    (extract_error_conditions "\x7bnot json".toList).2.2.1 _
      ((extract_error_conditions "\x7bnot json".toList).1 rfl)⟩

/-- C4 counterexample: on `'["x",{}]'` some record is a dict lacking
"prompt", yet extraction fails with the catch-all RuntimeError (the
TypeError on the earlier string record wins), not the missing-key
KeyError. -/
theorem extract_missing_key_not_always :
    json_loads "[\"x\",\x7b\x7d]".toList
      = some (Json.arr [Json.str ['x'], Json.obj []]) ∧
    extract_prompts_from_json "[\"x\",\x7b\x7d]".toList
      = Except.error ExtractErr.runtimeError ∧
    ExtractErr.runtimeError
      ≠ ExtractErr.missingPrompt "[\"x\",\x7b\x7d]".toList := by
  refine ⟨rfl, rfl, by decide⟩

/-- C10 (amended): for an input whose fence-stripped text parses as valid
JSON, extraction fails with the catch-all RuntimeError when the value is
not iterable (number, boolean, null), and when the items obtained by
iterating (list elements, dict keys, string characters) have a first
non-dict item preceded only by dicts containing "prompt"; when every item
is a dict containing "prompt" — in particular when there are no items at
all — extraction instead succeeds with the collected values. -/
theorem extract_valid_json_shapes (s : List Char) :
    (∀ v : Json, json_loads (stripFences s) = some v → iterJson v = none →
      extract_prompts_from_json s = Except.error ExtractErr.runtimeError) ∧
    (∀ (v x : Json) (pre post : List Json), json_loads (stripFences s) = some v →
      iterJson v = some (pre ++ x :: post) →
      (∀ y ∈ pre, isObjWithPrompt y = true) → isObj x = false →
      extract_prompts_from_json s = Except.error ExtractErr.runtimeError) ∧
    (∀ (v : Json) (items : List Json), json_loads (stripFences s) = some v →
      iterJson v = some items → (∀ y ∈ items, isObjWithPrompt y = true) →
      extract_prompts_from_json s = Except.ok (items.map promptValOf)) := by
  refine ⟨?_, ?_, ?_⟩
  · intro v hl hi
    simp [extract_prompts_from_json, extractCore, hl, hi]
  · intro v x pre post hl hi hpre hx
    simp [extract_prompts_from_json, extractCore, hl, hi,
      collectPrompts_firstNonObj pre x post hpre hx]
  · intro v items hl hi hall
    simp [extract_prompts_from_json, extractCore, hl, hi, collectPrompts_allGood items hall]

/-- Witness for `extract_valid_json_shapes`: a bare number is not
iterable and gives the RuntimeError; a one-element list holding a number
gives the RuntimeError at its first (non-dict) item. -/
theorem extract_valid_json_shapes_witness :
    extract_prompts_from_json "3".toList = Except.error ExtractErr.runtimeError ∧
    extract_prompts_from_json "[1]".toList = Except.error ExtractErr.runtimeError :=
  ⟨(extract_valid_json_shapes "3".toList).1 (Json.num ['3']) rfl rfl,
    (extract_valid_json_shapes "[1]".toList).2.1 (Json.arr [Json.num ['1']])
      (Json.num ['1']) [] [] rfl rfl (by simp) rfl⟩

/-- C10 counterexample: `'{}'` parses as valid JSON and is not a list of
dicts, yet extraction succeeds with zero prompts (iterating an empty dict
yields no items) instead of failing with the RuntimeError. -/
theorem extract_empty_object_succeeds :
    json_loads "\x7b\x7d".toList = some (Json.obj []) ∧
    extract_prompts_from_json "\x7b\x7d".toList = Except.ok [] ∧
    isObj (Json.obj []) = true := by
  refine ⟨rfl, rfl, rfl⟩

/-- When the counter is already at least 20, one rate-limit failure stops
the slot: delay gains 0.5, the counter and call count gain 1. -/
theorem attemptSlot_allRL_stop (oracle : Nat → Outcome)
    (hall : ∀ i, isRateLimitFailure (oracle i) = true)
    (s : GenState) (h20 : 20 ≤ s.errors) :
    attemptSlot oracle s
      = ⟨s.responses, s.delay + (1 : ℚ)/2, s.errors + 1, s.calls + 1⟩ := by
  have hrl := hall s.calls
  cases ho : oracle s.calls with
  | success t => rw [ho] at hrl; simp [isRateLimitFailure] at hrl
  | failure msg =>
      rw [ho] at hrl
      simp only [isRateLimitFailure] at hrl
      rw [attemptSlot, ho]
      simp only [hrl, if_true]
      rw [dif_pos (by omega)]

/-- Under an all-rate-limited oracle a slot whose counter is `20 - k`
retries until the counter reaches 21, never recording a response and
making `k + 1` calls. -/
theorem attemptSlot_allRL_ceiling (oracle : Nat → Outcome)
    (hall : ∀ i, isRateLimitFailure (oracle i) = true) :
    ∀ (k : Nat) (s : GenState), s.errors + k = 20 →
    attemptSlot oracle s
      = { responses := s.responses, delay := s.delay + ((k : ℚ) + 1)/2,
          errors := 21, calls := s.calls + (k + 1) } := by
  intro k
  induction k with
  | zero =>
      intro s hs
      rw [attemptSlot_allRL_stop oracle hall s (by omega)]
      simp only [GenState.mk.injEq]
      refine ⟨?_, ?_, ?_, ?_⟩ <;> first | trivial | omega | (push_cast; ring)
  | succ k ih =>
      intro s hs
      have hrl := hall s.calls
      cases ho : oracle s.calls with
      | success t => rw [ho] at hrl; simp [isRateLimitFailure] at hrl
      | failure msg =>
          rw [ho] at hrl
          simp only [isRateLimitFailure] at hrl
          rw [attemptSlot, ho]
          simp only [hrl, if_true]
          rw [dif_neg (by omega)]
          rw [ih ⟨s.responses, s.delay + (1 : ℚ)/2, s.errors + 1, s.calls + 1⟩
            (show s.errors + 1 + k = 20 by omega)]
          simp only [GenState.mk.injEq]
          refine ⟨?_, ?_, ?_, ?_⟩ <;> first | trivial | omega | (push_cast; ring)

/-- Under an all-rate-limited oracle, once the counter is at least 20
every remaining slot makes exactly one call and gives up, so `n` slots add
`n` to the counter and the call count and record nothing. -/
theorem generate_responses_allRL_high (oracle : Nat → Outcome)
    (hall : ∀ i, isRateLimitFailure (oracle i) = true) :
    ∀ (n : Nat) (s : GenState), 20 ≤ s.errors →
    generate_responses oracle n s
      = { responses := s.responses, delay := s.delay + (n : ℚ)/2,
          errors := s.errors + n, calls := s.calls + n } := by
  intro n
  induction n with
  | zero =>
      intro s hs
      show s = _
      refine GenState.ext ?_ ?_ ?_ ?_ <;> simp
  | succ n ih =>
      intro s hs
      show generate_responses oracle n (attemptSlot oracle s) = _
      rw [attemptSlot_allRL_stop oracle hall s hs,
        ih ⟨s.responses, s.delay + (1 : ℚ)/2, s.errors + 1, s.calls + 1⟩
          (show 20 ≤ s.errors + 1 by omega)]
      simp only [GenState.mk.injEq]
      refine ⟨?_, ?_, ?_, ?_⟩ <;> first | trivial | omega | (push_cast; ring)

/-- C1: when every API call raises a rate-limit-classified exception, a
run of `n ≥ 1` slots returns zero responses and terminates with the error
counter at `20 + n` (it passes 21 while retrying the first slot, after
which no slot retries again: only `20 + n` calls are made in total); the
run is a total function of the oracle, so no exception escapes it. -/
theorem generate_all_rate_limited (oracle : Nat → Outcome)
    (hall : ∀ i, isRateLimitFailure (oracle i) = true)
    (n : Nat) (hn : 1 ≤ n) :
    (generate_responses oracle n initState).responses = [] ∧
    (generate_responses oracle n initState).errors = 20 + n ∧
    (generate_responses oracle n initState).calls = 20 + n := by
  obtain ⟨m, rfl⟩ : ∃ m, n = m + 1 := ⟨n - 1, by omega⟩
  have h2 : generate_responses oracle (m + 1) initState
      = generate_responses oracle m (attemptSlot oracle initState) := rfl
  rw [h2, attemptSlot_allRL_ceiling oracle hall 20 initState (by simp [initState]),
    generate_responses_allRL_high oracle hall m _ (show 20 ≤ 21 by omega)]
  refine ⟨by simp [initState], by simp; omega, by simp [initState]; omega⟩

/-- Witness for `generate_all_rate_limited` at the constant rate-limited
oracle and two slots. -/
theorem generate_all_rate_limited_witness :
    (generate_responses allRateLimitedOracle 2 initState).responses = [] ∧
    (generate_responses allRateLimitedOracle 2 initState).errors = 20 + 2 ∧
    (generate_responses allRateLimitedOracle 2 initState).calls = 20 + 2 :=
  generate_all_rate_limited allRateLimitedOracle (fun _ => rfl) 2 (by omega)

/-- One slot changes the delay by exactly half the number of rate-limit
errors it records, whatever the oracle does. -/
theorem attemptSlot_delta (oracle : Nat → Outcome) :
    ∀ (m : Nat) (s : GenState), 21 - s.errors ≤ m →
    ∃ j : Nat, (attemptSlot oracle s).errors = s.errors + j ∧
      (attemptSlot oracle s).delay = s.delay + (j : ℚ)/2 := by
  intro m
  induction m with
  | zero =>
      intro s hm
      cases ho : oracle s.calls with
      | success t =>
          refine ⟨0, ?_, ?_⟩ <;> rw [attemptSlot, ho] <;> simp
      | failure msg =>
          by_cases hrl : isRateLimit msg = true
          · refine ⟨1, ?_, ?_⟩ <;> rw [attemptSlot, ho] <;>
              simp only [hrl, if_true] <;> rw [dif_pos (by omega)] <;> push_cast <;> ring
          · refine ⟨0, ?_, ?_⟩ <;> rw [attemptSlot, ho] <;> simp [hrl]
  | succ m ih =>
      intro s hm
      cases ho : oracle s.calls with
      | success t =>
          refine ⟨0, ?_, ?_⟩ <;> rw [attemptSlot, ho] <;> simp
      | failure msg =>
          by_cases hrl : isRateLimit msg = true
          · by_cases h20 : s.errors + 1 > 20
            · refine ⟨1, ?_, ?_⟩ <;> rw [attemptSlot, ho] <;>
                simp only [hrl, if_true] <;> rw [dif_pos h20] <;> push_cast <;> ring
            · obtain ⟨j, hj1, hj2⟩ :=
                ih ⟨s.responses, s.delay + (1 : ℚ)/2, s.errors + 1, s.calls + 1⟩
                  (show 21 - (s.errors + 1) ≤ m by omega)
              refine ⟨1 + j, ?_, ?_⟩
              · rw [attemptSlot, ho]
                simp only [hrl, if_true]
                rw [dif_neg h20, hj1]
                show s.errors + 1 + j = s.errors + (1 + j)
                omega
              · rw [attemptSlot, ho]
                simp only [hrl, if_true]
                rw [dif_neg h20, hj2]
                show s.delay + 1/2 + (j : ℚ)/2 = s.delay + ((1 : ℕ) + j : ℕ)/2
                push_cast
                ring
          · refine ⟨0, ?_, ?_⟩ <;> rw [attemptSlot, ho] <;> simp [hrl]

/-- A whole run changes the delay by exactly half the number of rate-limit
errors it records, whatever the oracle does. -/
theorem generate_responses_delta (oracle : Nat → Outcome) :
    ∀ (n : Nat) (s : GenState),
    ∃ j : Nat, (generate_responses oracle n s).errors = s.errors + j ∧
      (generate_responses oracle n s).delay = s.delay + (j : ℚ)/2 := by
  intro n
  induction n with
  | zero =>
      intro s
      refine ⟨0, ?_, ?_⟩ <;> simp [generate_responses]
  | succ n ih =>
      intro s
      obtain ⟨j1, h11, h12⟩ := attemptSlot_delta oracle 21 s (by omega)
      obtain ⟨j2, h21, h22⟩ := ih (attemptSlot oracle s)
      refine ⟨j1 + j2, ?_, ?_⟩
      · show (generate_responses oracle n (attemptSlot oracle s)).errors = _
        rw [h21, h11]
        omega
      · show (generate_responses oracle n (attemptSlot oracle s)).delay = _
        rw [h22, h12]
        push_cast
        ring

/-- Running `a + b` slots is running `a` slots and then `b` more. -/
theorem generate_responses_add (oracle : Nat → Outcome) :
    ∀ (a b : Nat) (s : GenState),
    generate_responses oracle (a + b) s
      = generate_responses oracle b (generate_responses oracle a s) := by
  intro a
  induction a with
  | zero => intro b s; simp only [Nat.zero_add]; rfl
  | succ a ih =>
      intro b s
      rw [show a + 1 + b = (a + b) + 1 by omega]
      show generate_responses oracle (a + b) (attemptSlot oracle s) = _
      rw [ih b (attemptSlot oracle s)]
      rfl

/-- C7: over a whole run the delay always equals 3 plus half the rate-limit
error counter (the counter counts exactly the rate-limit-classified
failures, each of which adds exactly 0.5, and nothing else changes the
delay), and the delay never decreases as the run extends. -/
theorem delay_tracks_errors (oracle : Nat → Outcome) (n k : Nat) :
    (generate_responses oracle n initState).delay
      = 3 + ((generate_responses oracle n initState).errors : ℚ)/2 ∧
    (generate_responses oracle n initState).delay
      ≤ (generate_responses oracle (n + k) initState).delay := by
  obtain ⟨j, hj1, hj2⟩ := generate_responses_delta oracle n initState
  constructor
  · rw [hj2, hj1]
    show (3 : ℚ) + (j : ℚ)/2 = 3 + ((0 + j : ℕ) : ℚ)/2
    push_cast
    ring
  · rw [generate_responses_add]
    obtain ⟨j2, h21, h22⟩ :=
      generate_responses_delta oracle k (generate_responses oracle n initState)
    rw [h22]
    have hpos : (0 : ℚ) ≤ (j2 : ℚ)/2 := by positivity
    linarith
